import Mathlib

/-!
A shallow embedding of the CHIP-8 CPU core in `src/main.c`, together with
theorems about its instruction semantics, stack discipline, fetch bounds,
and fault reporting.

Modelling conventions.  The C struct `CPU` has machine-integer fields
(`uint8_t registers[16]`, `size_t position_in_memory`, `uint8_t memory[4096]`,
`uint16_t stack[16]`, `size_t stack_pointer`).  Fields are modelled as
`Nat`-valued functions/values; every narrowing conversion performed by the C
types is written out as an explicit `% 256` (uint8_t) or `% 65536` (uint16_t)
at the point where a value is stored into, or read out of, a cell of that
width.  Decoded register indices are `< 16` by construction and are passed
unconverted.  The C arrays are modelled as functions `Nat → Nat`; the C code
indexes `memory` during fetch without any bounds check, so an out-of-range
program counter is undefined behavior in the source — the embedding marks
that case with the distinguished outcome `Step.oobFetch` instead of
assigning it a value.
-/

/-- Pointwise array write: models the C assignment `a[i] = v` on an array
viewed as a function from indices to contents. -/
def upd (f : Nat → Nat) (i v : Nat) : Nat → Nat :=
  fun j => if j = i then v else f j

/-- The CPU struct of `src/main.c` (lines 7-13). -/
structure CPU where
  /-- `uint8_t registers[16]` -/
  registers : Nat → Nat
  /-- `size_t position_in_memory` — the program counter -/
  position_in_memory : Nat
  /-- `uint8_t memory[4096]` -/
  memory : Nat → Nat
  /-- `uint16_t stack[16]` -/
  stack : Nat → Nat
  /-- `size_t stack_pointer` -/
  stack_pointer : Nat

/-- Outcome of one iteration of the while-loop in `run` (`src/main.c`
lines 30-109).

* `next c` — the iteration completed and the loop continues from `c`;
* `halt c` — opcode `0x0000`: `run` returns (clean halt);
* `unknownOpcode op c` — no dispatch arm matched: the C code executes
  `printf("Unhandled opcode: 0x%04X\n", opcode); exit(EXIT_FAILURE)`.
  The constructor carries exactly the diagnostic datum printed: the
  16-bit opcode.  The program counter is *not* part of the printout;
* `stackOverflow c` — `call` with a full stack: `printf("Stack overflow!\n");
  exit(EXIT_FAILURE)` (no diagnostic datum);
* `stackUnderflow c` — `ret` with an empty stack: `printf("Stack underflow!\n");
  exit(EXIT_FAILURE)` (no diagnostic datum);
* `oobFetch c` — the fetch at `c.position_in_memory` would index `memory`
  outside `[0, 4096)`.  The C source performs this access without any bounds
  check, so this case is undefined behavior there, not a detected fault; the
  embedding refuses to assign it a result and records the state unchanged. -/
inductive Step where
  | next (c : CPU)
  | halt (c : CPU)
  | unknownOpcode (opcode : Nat) (c : CPU)
  | stackOverflow (c : CPU)
  | stackUnderflow (c : CPU)
  | oobFetch (c : CPU)

/-- The machine state carried by a step outcome. -/
def Step.cpu : Step → CPU
  | .next c => c
  | .halt c => c
  | .unknownOpcode _ c => c
  | .stackOverflow c => c
  | .stackUnderflow c => c
  | .oobFetch c => c

/-- Program counter of the carried state. -/
def Step.pc (s : Step) : Nat := s.cpu.position_in_memory

/-- Stack pointer of the carried state. -/
def Step.sp (s : Step) : Nat := s.cpu.stack_pointer

/-- Register file of the carried state. -/
def Step.regs (s : Step) : Nat → Nat := s.cpu.registers

/-- Call stack of the carried state. -/
def Step.stk (s : Step) : Nat → Nat := s.cpu.stack

def Step.isNext : Step → Bool
  | .next _ => true
  | _ => false

def Step.isHalt : Step → Bool
  | .halt _ => true
  | _ => false

def Step.isUnknown : Step → Bool
  | .unknownOpcode _ _ => true
  | _ => false

def Step.isOverflow : Step → Bool
  | .stackOverflow _ => true
  | _ => false

def Step.isUnderflow : Step → Bool
  | .stackUnderflow _ => true
  | _ => false

def Step.isOob : Step → Bool
  | .oobFetch _ => true
  | _ => false

/-- The diagnostic datum the C code prints when it stops on a fault: the
literal opcode for an unhandled opcode (`printf("Unhandled opcode: 0x%04X\n",
opcode)`), and nothing for the stack faults (their messages carry no value
argument).  No fault printout includes the program counter. -/
def Step.reported : Step → Option Nat
  | .unknownOpcode op _ => some op
  | _ => none

/-! ## Opcode decoding (`src/main.c` lines 38-42)

The C code decodes with masks and shifts; on the `Nat` model the same
fields are division/remainder by powers of two.  For every `n`,
`(n & 0x0F00) >> 8 = n / 256 % 16`, `(n & 0x00F0) >> 4 = n / 16 % 16`,
`n & 0x00FF = n % 256`, `n & 0x000F = n % 16`, `n & 0x0FFF = n % 4096`;
and since a fetched opcode is `< 65536`, `(opcode & 0xF000) == 0xK000`
is equivalent to `opcode / 4096 = K`. -/

/-- `uint8_t x = (opcode & 0x0F00) >> 8` — register-X index. -/
def xOf (opcode : Nat) : Nat := opcode / 256 % 16

/-- `uint8_t y = (opcode & 0x00F0) >> 4` — register-Y index. -/
def yOf (opcode : Nat) : Nat := opcode / 16 % 16

/-- `uint8_t kk = opcode & 0x00FF` — immediate byte. -/
def kkOf (opcode : Nat) : Nat := opcode % 256

/-- `uint8_t op_minor = opcode & 0x000F` — minor opcode nibble. -/
def minorOf (opcode : Nat) : Nat := opcode % 16

/-- `uint16_t addr = opcode & 0x0FFF` — 12-bit address. -/
def addrOf (opcode : Nat) : Nat := opcode % 4096

/-- The 4-bit opcode class: the C dispatch tests `(opcode & 0xF000) == 0xK000`,
which for a fetched opcode (`< 65536`) is `classOf opcode = K`. -/
def classOf (opcode : Nat) : Nat := opcode / 4096

/-! ## Instruction handlers (`src/main.c` lines 112-179) -/

/-- `ld` (lines 112-114): `cpu->registers[vx] = kk;` (`kk` is a `uint8_t`). -/
def ld (c : CPU) (vx kk : Nat) : CPU :=
  { c with registers := upd c.registers vx (kk % 256) }

/-- `add` (lines 117-119): `cpu->registers[vx] += kk;` — a `uint8_t` sum,
hence wrapping modulo 256.  Only register `vx` is written. -/
def add (c : CPU) (vx kk : Nat) : CPU :=
  { c with registers := upd c.registers vx ((c.registers vx + kk) % 256) }

/-- `se` (lines 122-126): skip the next instruction if `Vvx == kk`
(both `uint8_t`). -/
def se (c : CPU) (vx kk : Nat) : CPU :=
  if c.registers vx % 256 = kk % 256 then
    { c with position_in_memory := c.position_in_memory + 2 }
  else c

/-- `sne` (lines 129-133): skip the next instruction if `Vvx != kk`. -/
def sne (c : CPU) (vx kk : Nat) : CPU :=
  if c.registers vx % 256 ≠ kk % 256 then
    { c with position_in_memory := c.position_in_memory + 2 }
  else c

/-- `jmp` (lines 136-138): `cpu->position_in_memory = addr;`
(`addr` is a `uint16_t` parameter). -/
def jmp (c : CPU) (addr : Nat) : CPU :=
  { c with position_in_memory := addr % 65536 }

/-- `call` (lines 141-148): overflow check against the 16-entry capacity,
then `cpu->stack[cpu->stack_pointer++] = cpu->position_in_memory` (a
`uint16_t` store of the already-advanced program counter) and
`cpu->position_in_memory = addr`. -/
def call (c : CPU) (addr : Nat) : Step :=
  if 16 ≤ c.stack_pointer then .stackOverflow c
  else .next { c with
    stack := upd c.stack c.stack_pointer (c.position_in_memory % 65536),
    stack_pointer := c.stack_pointer + 1,
    position_in_memory := addr % 65536 }

/-- `ret` (lines 151-157): underflow check, then
`cpu->position_in_memory = cpu->stack[--cpu->stack_pointer]`
(a `uint16_t` read). -/
def ret (c : CPU) : Step :=
  if c.stack_pointer = 0 then .stackUnderflow c
  else .next { c with
    stack_pointer := c.stack_pointer - 1,
    position_in_memory := c.stack (c.stack_pointer - 1) % 65536 }

/-- `add_xy` (lines 160-164): `uint16_t sum = registers[x] + registers[y];
registers[x] = sum & 0xFF;` and then — afterwards, overwriting the first
write when `x = 0xF` — `registers[0xF] = (sum > 0xFF) ? 1 : 0`. -/
def add_xy (c : CPU) (x y : Nat) : CPU :=
  let sum := c.registers x % 256 + c.registers y % 256
  { c with registers := upd (upd c.registers x (sum % 256)) 15 (if 255 < sum then 1 else 0) }

/-- `and_xy` (lines 167-169): `cpu->registers[x] &= cpu->registers[y];`. -/
def and_xy (c : CPU) (x y : Nat) : CPU :=
  { c with registers := upd c.registers x (Nat.land (c.registers x % 256) (c.registers y % 256)) }

/-- `or_xy` (lines 172-174): `cpu->registers[x] |= cpu->registers[y];`. -/
def or_xy (c : CPU) (x y : Nat) : CPU :=
  { c with registers := upd c.registers x (Nat.lor (c.registers x % 256) (c.registers y % 256)) }

/-- `xor_xy` (lines 177-179): `cpu->registers[x] ^= cpu->registers[y];`. -/
def xor_xy (c : CPU) (x y : Nat) : CPU :=
  { c with registers := upd c.registers x (Nat.xor (c.registers x % 256) (c.registers y % 256)) }

/-! ## Fetch, dispatch, and the execution loop (`src/main.c` lines 30-109) -/

/-- The fetch (lines 33-35): `opcode = (memory[pc] << 8) | memory[pc + 1]`,
big-endian, each cell a `uint8_t` (hence the `% 256` reads; the shift-or of
two bytes equals `byte1 * 256 + byte2`). -/
def fetch (c : CPU) : Nat :=
  c.memory c.position_in_memory % 256 * 256 + c.memory (c.position_in_memory + 1) % 256

/-- The dispatch chain of `run` (lines 47-107), applied to the state whose
program counter has already been advanced by 2 (line 44 runs before this). -/
def exec (c : CPU) (opcode : Nat) : Step :=
  if opcode = 0x0000 then .halt c
  else if opcode = 0x00E0 then .next c
  else if opcode = 0x00EE then ret c
  else if classOf opcode = 0x1 then .next (jmp c (addrOf opcode))
  else if classOf opcode = 0x2 then call c (addrOf opcode)
  else if classOf opcode = 0x3 then .next (se c (xOf opcode) (kkOf opcode))
  else if classOf opcode = 0x4 then .next (sne c (xOf opcode) (kkOf opcode))
  else if classOf opcode = 0x5 then .next (se c (xOf opcode) (c.registers (yOf opcode) % 256))
  else if classOf opcode = 0x6 then .next (ld c (xOf opcode) (kkOf opcode))
  else if classOf opcode = 0x7 then .next (add c (xOf opcode) (kkOf opcode))
  else if classOf opcode = 0x8 then
    if minorOf opcode = 0x0 then .next (ld c (xOf opcode) (c.registers (yOf opcode) % 256))
    else if minorOf opcode = 0x1 then .next (or_xy c (xOf opcode) (yOf opcode))
    else if minorOf opcode = 0x2 then .next (and_xy c (xOf opcode) (yOf opcode))
    else if minorOf opcode = 0x3 then .next (xor_xy c (xOf opcode) (yOf opcode))
    else if minorOf opcode = 0x4 then .next (add_xy c (xOf opcode) (yOf opcode))
    else .unknownOpcode opcode c
  else .unknownOpcode opcode c

/-- One iteration of the while-loop of `run`: fetch the two bytes at the
program counter (undefined behavior — `oobFetch` — if that read would be out
of the 4096-byte array), advance the program counter by 2, then dispatch. -/
def step (c : CPU) : Step :=
  if c.position_in_memory + 1 < 4096 then
    exec { c with position_in_memory := c.position_in_memory + 2 } (fetch c)
  else .oobFetch c

/-- `run`, fuel-bounded: iterate `step` up to `n` times, stopping — exactly
as the C loop does — at the first iteration that halts or faults.  `next c`
after `n` iterations means the loop is still running in state `c`. -/
def run : Nat → CPU → Step
  | 0, c => .next c
  | n + 1, c =>
    match step c with
    | .next c2 => run n c2
    | r => r

/-! ## Dispatch lemmas: which arm a given opcode reaches -/

theorem xOf_lt (opcode : Nat) : xOf opcode < 16 :=
  Nat.mod_lt _ (by omega)

theorem yOf_lt (opcode : Nat) : yOf opcode < 16 :=
  Nat.mod_lt _ (by omega)

theorem step_eq_exec (c : CPU) (h : c.position_in_memory + 1 < 4096) :
    step c = exec { c with position_in_memory := c.position_in_memory + 2 } (fetch c) := by
  simp [step, h]

theorem fetch_eq (c : CPU) (p hi lo : Nat) (hp : c.position_in_memory = p)
    (h1 : c.memory p % 256 = hi) (h2 : c.memory (p + 1) % 256 = lo) :
    fetch c = hi * 256 + lo := by
  simp [fetch, hp, h1, h2]

theorem exec_ret (c : CPU) (op : Nat) (h : op = 0x00EE) :
    exec c op = ret c := by
  simp [exec, h]

theorem exec_class2 (c : CPU) (op : Nat) (h : op / 4096 = 2) :
    exec c op = call c (addrOf op) := by
  have h0 : op ≠ 0 := by omega
  have h1 : op ≠ 0x00E0 := by omega
  have h2 : op ≠ 0x00EE := by omega
  simp [exec, classOf, h, h0, h1, h2]

theorem exec_class3 (c : CPU) (op : Nat) (h : op / 4096 = 3) :
    exec c op = .next (se c (xOf op) (kkOf op)) := by
  have h0 : op ≠ 0 := by omega
  have h1 : op ≠ 0x00E0 := by omega
  have h2 : op ≠ 0x00EE := by omega
  simp [exec, classOf, h, h0, h1, h2]

theorem exec_class4 (c : CPU) (op : Nat) (h : op / 4096 = 4) :
    exec c op = .next (sne c (xOf op) (kkOf op)) := by
  have h0 : op ≠ 0 := by omega
  have h1 : op ≠ 0x00E0 := by omega
  have h2 : op ≠ 0x00EE := by omega
  simp [exec, classOf, h, h0, h1, h2]

theorem exec_class5 (c : CPU) (op : Nat) (h : op / 4096 = 5) :
    exec c op = .next (se c (xOf op) (c.registers (yOf op) % 256)) := by
  have h0 : op ≠ 0 := by omega
  have h1 : op ≠ 0x00E0 := by omega
  have h2 : op ≠ 0x00EE := by omega
  simp [exec, classOf, h, h0, h1, h2]

theorem exec_class7 (c : CPU) (op : Nat) (h : op / 4096 = 7) :
    exec c op = .next (add c (xOf op) (kkOf op)) := by
  have h0 : op ≠ 0 := by omega
  have h1 : op ≠ 0x00E0 := by omega
  have h2 : op ≠ 0x00EE := by omega
  simp [exec, classOf, h, h0, h1, h2]

theorem exec_class8_add (c : CPU) (op : Nat) (h : op / 4096 = 8) (hm : op % 16 = 4) :
    exec c op = .next (add_xy c (xOf op) (yOf op)) := by
  have h0 : op ≠ 0 := by omega
  have h1 : op ≠ 0x00E0 := by omega
  have h2 : op ≠ 0x00EE := by omega
  simp [exec, classOf, minorOf, h, hm, h0, h1, h2]

/-! ## Claim C1: register-register ADD (0x8XY4) -/

/-- Concrete machine refuting claim C1 at register index X = 15: the
instruction at address 0 is `0x8F04` (ADD V15, V0) with V15 = 1, V0 = 2. -/
def cpuC1 : CPU :=
  { registers := fun i => if i = 0 then 2 else if i = 15 then 1 else 0
    position_in_memory := 0
    memory := fun a => if a = 0 then 0x8F else if a = 1 then 0x04 else 0
    stack := fun _ => 0
    stack_pointer := 0 }

/-- Claim C1, counterexample.  With X = 15 the claim asserts that executing
ADD Vx,Vy with Vx = 1, Vy = 2 sets Vx (= V15) to (1+2) mod 256 = 3; the code
instead overwrites V15 with the carry flag 0 (lines 162-163 of src/main.c),
so V15 ends as 0, not 3. -/
theorem C1_counterexample :
    cpuC1.registers 15 = 1 ∧ cpuC1.registers 0 = 2 ∧
    (step cpuC1).isNext = true ∧ (step cpuC1).regs 15 = 0 ∧
    (1 + 2) % 256 ≠ 0 := by
  refine ⟨rfl, rfl, rfl, ?_, by decide⟩
  rfl

/-- Claim C1, amended: for all pairs (a, b) in [0,255] and register indices
X ≠ 15, Y arbitrary, executing ADD Vx,Vy (0x8XY4) with Vx = a and Vy = b sets
Vx to (a + b) mod 256 and sets the flag register V15 to 1 if a + b > 255 and
to 0 otherwise.  (For X = 15 the flag write overwrites the sum; see the
counterexample and claim C9.) -/
theorem C1_thm (c : CPU) (p x y a b : Nat)
    (hp : c.position_in_memory = p) (hbp : p + 1 < 4096)
    (hx : x < 16) (hy : y < 16) (hx15 : x ≠ 15)
    (hm1 : c.memory p % 256 = 128 + x) (hm2 : c.memory (p + 1) % 256 = 16 * y + 4)
    (ha : c.registers x = a) (ha2 : a < 256)
    (hb : c.registers y = b) (hb2 : b < 256) :
    (step c).isNext = true ∧ (step c).regs x = (a + b) % 256 ∧
    (step c).regs 15 = (if 255 < a + b then 1 else 0) := by
  have hstep := step_eq_exec c (by omega)
  have hf := fetch_eq c p (128 + x) (16 * y + 4) hp hm1 hm2
  have hcl : ((128 + x) * 256 + (16 * y + 4)) / 4096 = 8 := by omega
  have hmi : ((128 + x) * 256 + (16 * y + 4)) % 16 = 4 := by omega
  have hxx : xOf ((128 + x) * 256 + (16 * y + 4)) = x := by
    simp only [xOf]; omega
  have hyy : yOf ((128 + x) * 256 + (16 * y + 4)) = y := by
    simp only [yOf]; omega
  rw [hstep, hf, exec_class8_add _ _ hcl hmi, hxx, hyy]
  simp [add_xy, Step.isNext, Step.regs, Step.cpu, upd, ha, hb,
    Nat.mod_eq_of_lt ha2, Nat.mod_eq_of_lt hb2, hx15]

/-- Claim C1, witness: ADD V0, V1 with V0 = 200, V1 = 100 wraps to 44 and
sets the carry flag. -/
def cpuC1w : CPU :=
  { registers := fun i => if i = 0 then 200 else if i = 1 then 100 else 0
    position_in_memory := 0
    memory := fun a => if a = 0 then 0x80 else if a = 1 then 0x14 else 0
    stack := fun _ => 0
    stack_pointer := 0 }

theorem C1_witness :
    (step cpuC1w).isNext = true ∧ (step cpuC1w).regs 0 = (200 + 100) % 256 ∧
    (step cpuC1w).regs 15 = (if 255 < 200 + 100 then 1 else 0) :=
  C1_thm cpuC1w 0 0 1 200 100 rfl (by omega) (by omega) (by omega) (by omega)
    (by decide) (by decide) rfl (by omega) rfl (by omega)

/-! ## Claim C6: immediate ADD (0x7XKK) -/

/-- Claim C6: for all a, k in [0,255] and every register index X other than
15, executing ADD Vx,KK (0x7XKK) with Vx = a sets Vx to (a + k) mod 256 and
leaves the flag register V15 unmodified (the handler `add` writes only
register X). -/
theorem C6_thm (c : CPU) (p x a k : Nat)
    (hp : c.position_in_memory = p) (hbp : p + 1 < 4096)
    (hx : x < 16) (hx15 : x ≠ 15)
    (hm1 : c.memory p % 256 = 112 + x) (hm2 : c.memory (p + 1) % 256 = k)
    (ha : c.registers x = a) (ha2 : a < 256) (hk : k < 256) :
    (step c).isNext = true ∧ (step c).regs x = (a + k) % 256 ∧
    (step c).regs 15 = c.registers 15 := by
  have hstep := step_eq_exec c (by omega)
  have hf := fetch_eq c p (112 + x) k hp hm1 hm2
  have hcl : ((112 + x) * 256 + k) / 4096 = 7 := by omega
  have hxx : xOf ((112 + x) * 256 + k) = x := by
    simp only [xOf]; omega
  have hkk : kkOf ((112 + x) * 256 + k) = k := by
    simp only [kkOf]; omega
  have hx15' : (15 : Nat) ≠ x := fun h => hx15 h.symm
  rw [hstep, hf, exec_class7 _ _ hcl, hxx, hkk]
  simp [add, Step.isNext, Step.regs, Step.cpu, upd, ha, hx15, hx15']

/-- Claim C6, witness: ADD V2, 0xFF with V2 = 7 wraps to 6 and V15 keeps its
initial value 9. -/
def cpuC6w : CPU :=
  { registers := fun i => if i = 2 then 7 else if i = 15 then 9 else 0
    position_in_memory := 0
    memory := fun a => if a = 0 then 0x72 else if a = 1 then 0xFF else 0
    stack := fun _ => 0
    stack_pointer := 0 }

theorem C6_witness :
    (step cpuC6w).isNext = true ∧ (step cpuC6w).regs 2 = (7 + 255) % 256 ∧
    (step cpuC6w).regs 15 = cpuC6w.registers 15 :=
  C6_thm cpuC6w 0 2 7 255 rfl (by omega) (by omega) (by omega)
    (by decide) (by decide) rfl (by omega) (by omega)

/-! ## Claim C8: SE Vx,KK and SNE Vx,KK skip semantics -/

/-- Claim C8: executing SE Vx,KK (0x3XKK) advances the program counter by 4
in total (one skipped instruction) iff Vx = KK and by 2 otherwise; SNE Vx,KK
(0x4XKK) is the logical complement, advancing by 4 in total iff Vx differs
from KK. -/
theorem C8_thm (c : CPU) (p x a k : Nat)
    (hp : c.position_in_memory = p) (hbp : p + 1 < 4096)
    (hx : x < 16) (hk : k < 256)
    (ha : c.registers x = a) (ha2 : a < 256)
    (hlo : c.memory (p + 1) % 256 = k) :
    (c.memory p % 256 = 48 + x →
      (step c).isNext = true ∧ (step c).pc = (if a = k then p + 4 else p + 2)) ∧
    (c.memory p % 256 = 64 + x →
      (step c).isNext = true ∧ (step c).pc = (if a ≠ k then p + 4 else p + 2)) := by
  have hstep := step_eq_exec c (by omega)
  constructor
  · intro hm1
    have hf := fetch_eq c p (48 + x) k hp hm1 hlo
    have hcl : ((48 + x) * 256 + k) / 4096 = 3 := by omega
    have hxx : xOf ((48 + x) * 256 + k) = x := by
      simp only [xOf]; omega
    have hkk : kkOf ((48 + x) * 256 + k) = k := by
      simp only [kkOf]; omega
    rw [hstep, hf, exec_class3 _ _ hcl, hxx, hkk]
    simp only [se, ha, Nat.mod_eq_of_lt ha2, Nat.mod_eq_of_lt hk]
    by_cases hak : a = k <;>
      simp [hak, Step.isNext, Step.pc, Step.cpu, hp]
  · intro hm1
    have hf := fetch_eq c p (64 + x) k hp hm1 hlo
    have hcl : ((64 + x) * 256 + k) / 4096 = 4 := by omega
    have hxx : xOf ((64 + x) * 256 + k) = x := by
      simp only [xOf]; omega
    have hkk : kkOf ((64 + x) * 256 + k) = k := by
      simp only [kkOf]; omega
    rw [hstep, hf, exec_class4 _ _ hcl, hxx, hkk]
    simp only [sne, ha, Nat.mod_eq_of_lt ha2, Nat.mod_eq_of_lt hk]
    by_cases hak : a = k <;>
      simp [hak, Step.isNext, Step.pc, Step.cpu, hp]

/-- Claim C8, witness machines: SE V1,5 with V1 = 5 (taken skip) and
SNE V1,5 with V1 = 5 (skip not taken). -/
def cpuC8se : CPU :=
  { registers := fun i => if i = 1 then 5 else 0
    position_in_memory := 0
    memory := fun a => if a = 0 then 0x31 else if a = 1 then 0x05 else 0
    stack := fun _ => 0
    stack_pointer := 0 }

def cpuC8sne : CPU :=
  { registers := fun i => if i = 1 then 5 else 0
    position_in_memory := 0
    memory := fun a => if a = 0 then 0x41 else if a = 1 then 0x05 else 0
    stack := fun _ => 0
    stack_pointer := 0 }

theorem C8_witness :
    ((step cpuC8se).isNext = true ∧
      (step cpuC8se).pc = (if (5 : Nat) = 5 then 0 + 4 else 0 + 2)) ∧
    ((step cpuC8sne).isNext = true ∧
      (step cpuC8sne).pc = (if (5 : Nat) ≠ 5 then 0 + 4 else 0 + 2)) :=
  ⟨(C8_thm cpuC8se 0 1 5 5 rfl (by omega) (by omega) (by omega) rfl (by omega)
      (by decide)).1 (by decide),
   (C8_thm cpuC8sne 0 1 5 5 rfl (by omega) (by omega) (by omega) rfl (by omega)
      (by decide)).2 (by decide)⟩

/-! ## Claim C9: ADD Vx,Vy targeting the flag register (X = 15) -/

/-- Claim C9: when ADD Vx,Vy (0x8XY4) targets the flag register itself
(X = 15, opcode 0x8FY4), the final value of V15 is the carry flag — 1 if the
unbounded sum exceeds 255, else 0 — and not the wrapped sum, because the
flag write at line 163 of src/main.c happens after, and overwrites, the sum
write at line 162. -/
theorem C9_thm (c : CPU) (p y a b : Nat)
    (hp : c.position_in_memory = p) (hbp : p + 1 < 4096) (hy : y < 16)
    (hm1 : c.memory p % 256 = 0x8F) (hm2 : c.memory (p + 1) % 256 = 16 * y + 4)
    (ha : c.registers 15 = a) (ha2 : a < 256)
    (hb : c.registers y = b) (hb2 : b < 256) :
    (step c).isNext = true ∧
    (step c).regs 15 = (if 255 < a + b then 1 else 0) := by
  have hstep := step_eq_exec c (by omega)
  have hf := fetch_eq c p 0x8F (16 * y + 4) hp hm1 hm2
  have hcl : (0x8F * 256 + (16 * y + 4)) / 4096 = 8 := by omega
  have hmi : (0x8F * 256 + (16 * y + 4)) % 16 = 4 := by omega
  have hxx : xOf (0x8F * 256 + (16 * y + 4)) = 15 := by
    simp only [xOf]; omega
  have hyy : yOf (0x8F * 256 + (16 * y + 4)) = y := by
    simp only [yOf]; omega
  rw [hstep, hf, exec_class8_add _ _ hcl hmi, hxx, hyy]
  simp [add_xy, Step.isNext, Step.regs, Step.cpu, upd, ha, hb,
    Nat.mod_eq_of_lt ha2, Nat.mod_eq_of_lt hb2]

/-- Claim C9, witness: ADD V15, V1 with V15 = 250, V1 = 10: the sum 260
wraps to 4, but V15 finally holds the carry flag 1. -/
def cpuC9w : CPU :=
  { registers := fun i => if i = 1 then 10 else if i = 15 then 250 else 0
    position_in_memory := 0
    memory := fun a => if a = 0 then 0x8F else if a = 1 then 0x14 else 0
    stack := fun _ => 0
    stack_pointer := 0 }

theorem C9_witness :
    (step cpuC9w).isNext = true ∧
    (step cpuC9w).regs 15 = (if 255 < 250 + 10 then 1 else 0) :=
  C9_thm cpuC9w 0 1 250 10 rfl (by omega) (by omega) (by decide) (by decide)
    rfl (by omega) rfl (by omega)

/-! ## Branch lemmas for call, ret, and run -/

theorem call_lt (c : CPU) (addr : Nat) (h : c.stack_pointer < 16) :
    call c addr = .next { c with
      stack := upd c.stack c.stack_pointer (c.position_in_memory % 65536),
      stack_pointer := c.stack_pointer + 1,
      position_in_memory := addr % 65536 } := by
  unfold call
  rw [if_neg (by omega)]

theorem call_ge (c : CPU) (addr : Nat) (h : 16 ≤ c.stack_pointer) :
    call c addr = .stackOverflow c := by
  unfold call
  rw [if_pos h]

theorem ret_ne (c : CPU) (h : c.stack_pointer ≠ 0) :
    ret c = .next { c with
      stack_pointer := c.stack_pointer - 1,
      position_in_memory := c.stack (c.stack_pointer - 1) % 65536 } := by
  unfold ret
  rw [if_neg h]

theorem ret_zero (c : CPU) (h : c.stack_pointer = 0) :
    ret c = .stackUnderflow c := by
  unfold ret
  rw [if_pos h]

theorem run_succ_next (n : Nat) (c c2 : CPU) (h : step c = Step.next c2) :
    run (n + 1) c = run n c2 := by
  rw [run, h]

theorem run_one (c : CPU) : run 1 c = step c := by
  show run (0 + 1) c = step c
  rw [run]
  cases h : step c <;> simp [run]

/-! ## Claim C5: CALL/RET round trip -/

/-- Claim C5: for a CALL NNN fetched at position p with the stack not full,
whose target NNN holds a RET: the CALL pushes the already-advanced program
counter p + 2 and sets the program counter to NNN; the immediately following
RET restores the program counter to p + 2 (the instruction directly after
the CALL) and restores the stack depth. -/
theorem C5_thm (c : CPU) (p addr : Nat)
    (hp : c.position_in_memory = p) (hbp : p + 1 < 4096)
    (haddr : addr < 4096) (hba : addr + 1 < 4096)
    (hm1 : c.memory p % 256 = 32 + addr / 256)
    (hm2 : c.memory (p + 1) % 256 = addr % 256)
    (hr1 : c.memory addr % 256 = 0) (hr2 : c.memory (addr + 1) % 256 = 0xEE)
    (hsp : c.stack_pointer < 16) :
    (step c).isNext = true ∧ (step c).pc = addr ∧
    (step c).sp = c.stack_pointer + 1 ∧ (step c).stk c.stack_pointer = p + 2 ∧
    (run 2 c).isNext = true ∧ (run 2 c).pc = p + 2 ∧
    (run 2 c).sp = c.stack_pointer := by
  have hp2 : (c.position_in_memory + 2) % 65536 = p + 2 := by omega
  have haddrm : addr % 65536 = addr := Nat.mod_eq_of_lt (by omega)
  -- the CALL step
  have h1 : step c = .next { c with
      stack := upd c.stack c.stack_pointer (p + 2),
      stack_pointer := c.stack_pointer + 1,
      position_in_memory := addr } := by
    rw [step_eq_exec c (by omega)]
    have hf : fetch c = 8192 + addr := by
      have h := fetch_eq c p (32 + addr / 256) (addr % 256) hp hm1 hm2
      omega
    have hao : addrOf (8192 + addr) = addr := by simp only [addrOf]; omega
    rw [hf, exec_class2 _ _ (by omega), hao,
      call_lt { c with position_in_memory := c.position_in_memory + 2 } addr hsp]
    simp [hp2, haddrm]
  -- the RET step, stated for any state shaped like the post-CALL state
  have key2 : ∀ d : CPU, d.position_in_memory = addr → d.memory = c.memory →
      d.stack = upd c.stack c.stack_pointer (p + 2) →
      d.stack_pointer = c.stack_pointer + 1 →
      (step d).isNext = true ∧ (step d).pc = p + 2 ∧
      (step d).sp = c.stack_pointer := by
    intro d hdp hdm hds hdsp
    rw [step_eq_exec d (by omega)]
    have hfd : fetch d = 0xEE := by
      simp [fetch, hdp, hdm, hr1, hr2]
    rw [hfd, exec_ret _ _ rfl, ret_ne _ (by simp; omega)]
    have hmod : (p + 2) % 65536 = p + 2 := by omega
    simp [Step.isNext, Step.pc, Step.sp, Step.cpu, hds, hdsp, upd, hmod]
  have hq := key2 { c with
      stack := upd c.stack c.stack_pointer (p + 2),
      stack_pointer := c.stack_pointer + 1,
      position_in_memory := addr } rfl rfl rfl rfl
  have e := run_succ_next 1 c _ h1
  have e2 : run 2 c = step { c with
      stack := upd c.stack c.stack_pointer (p + 2),
      stack_pointer := c.stack_pointer + 1,
      position_in_memory := addr } := by
    rw [show run 2 c = run (1 + 1) c from rfl, e, run_one]
  refine ⟨by rw [h1]; rfl, by rw [h1]; rfl, by rw [h1]; rfl, ?_, ?_, ?_, ?_⟩
  · rw [h1]
    simp [Step.stk, Step.cpu, upd]
  · rw [e2]; exact hq.1
  · rw [e2]; exact hq.2.1
  · rw [e2]; exact hq.2.2

/-- Claim C5, witness: CALL 0x100 at address 0, RET at 0x100. -/
def cpuC5w : CPU :=
  { registers := fun _ => 0
    position_in_memory := 0
    memory := fun a =>
      if a = 0 then 0x21 else if a = 1 then 0x00
      else if a = 0x100 then 0x00 else if a = 0x101 then 0xEE else 0
    stack := fun _ => 0
    stack_pointer := 0 }

theorem C5_witness :
    (step cpuC5w).isNext = true ∧ (step cpuC5w).pc = 256 ∧
    (step cpuC5w).sp = cpuC5w.stack_pointer + 1 ∧
    (step cpuC5w).stk cpuC5w.stack_pointer = 0 + 2 ∧
    (run 2 cpuC5w).isNext = true ∧ (run 2 cpuC5w).pc = 0 + 2 ∧
    (run 2 cpuC5w).sp = cpuC5w.stack_pointer :=
  C5_thm cpuC5w 0 256 rfl (by omega) (by omega) (by omega)
    (by decide) (by decide) (by decide) (by decide) (by decide)

/-! ## Claim C2: stack discipline -/

theorem se_sp (c : CPU) (x k : Nat) : (se c x k).stack_pointer = c.stack_pointer := by
  unfold se
  split <;> rfl

theorem sne_sp (c : CPU) (x k : Nat) : (sne c x k).stack_pointer = c.stack_pointer := by
  unfold sne
  split <;> rfl

theorem exec_sp_le (d : CPU) (op : Nat) (h : d.stack_pointer ≤ 16) :
    (exec d op).sp ≤ 16 := by
  have hse : ∀ x k, (Step.next (se d x k)).sp ≤ 16 := by
    intro x k
    simpa [Step.sp, Step.cpu, se_sp] using h
  have hsne : ∀ x k, (Step.next (sne d x k)).sp ≤ 16 := by
    intro x k
    simpa [Step.sp, Step.cpu, sne_sp] using h
  have hcall : ∀ a, (call d a).sp ≤ 16 := by
    intro a
    unfold call
    by_cases hc : 16 ≤ d.stack_pointer
    · rw [if_pos hc]; exact h
    · rw [if_neg hc]
      show d.stack_pointer + 1 ≤ 16
      omega
  have hret : (ret d).sp ≤ 16 := by
    unfold ret
    by_cases hz : d.stack_pointer = 0
    · rw [if_pos hz]; exact h
    · rw [if_neg hz]
      show d.stack_pointer - 1 ≤ 16
      omega
  unfold exec
  by_cases h0 : op = 0x0000
  · rw [if_pos h0]; exact h
  rw [if_neg h0]
  by_cases h1 : op = 0x00E0
  · rw [if_pos h1]; exact h
  rw [if_neg h1]
  by_cases h2 : op = 0x00EE
  · rw [if_pos h2]; exact hret
  rw [if_neg h2]
  by_cases h3 : classOf op = 1
  · rw [if_pos h3]; exact h
  rw [if_neg h3]
  by_cases h4 : classOf op = 2
  · rw [if_pos h4]; exact hcall _
  rw [if_neg h4]
  by_cases h5 : classOf op = 3
  · rw [if_pos h5]; exact hse _ _
  rw [if_neg h5]
  by_cases h6 : classOf op = 4
  · rw [if_pos h6]; exact hsne _ _
  rw [if_neg h6]
  by_cases h7 : classOf op = 5
  · rw [if_pos h7]; exact hse _ _
  rw [if_neg h7]
  by_cases h8 : classOf op = 6
  · rw [if_pos h8]; exact h
  rw [if_neg h8]
  by_cases h9 : classOf op = 7
  · rw [if_pos h9]; exact h
  rw [if_neg h9]
  by_cases h10 : classOf op = 8
  · rw [if_pos h10]
    by_cases m0 : minorOf op = 0
    · rw [if_pos m0]; exact h
    rw [if_neg m0]
    by_cases m1 : minorOf op = 1
    · rw [if_pos m1]; exact h
    rw [if_neg m1]
    by_cases m2 : minorOf op = 2
    · rw [if_pos m2]; exact h
    rw [if_neg m2]
    by_cases m3 : minorOf op = 3
    · rw [if_pos m3]; exact h
    rw [if_neg m3]
    by_cases m4 : minorOf op = 4
    · rw [if_pos m4]; exact h
    rw [if_neg m4]
    exact h
  rw [if_neg h10]
  exact h

/-- No iteration of the loop can push the stack depth beyond the 16-entry
capacity: `call` refuses (overflow fault) once the depth is 16. -/
theorem step_sp_le (c : CPU) (h : c.stack_pointer ≤ 16) : (step c).sp ≤ 16 := by
  unfold step
  split
  · exact exec_sp_le _ _ h
  · exact h

theorem run_stops (n : Nat) (c : CPU) (h : (step c).isNext = false) :
    run (n + 1) c = step c := by
  rw [run]
  cases hs : step c <;> simp_all [Step.isNext]

/-- A memory image that is one long chain of CALLs: the instruction at every
even address 2k is `CALL 2k+2`.  Starting at address 0 with an empty stack,
the nth executed instruction is the nth nested CALL. -/
def chainCpu : CPU :=
  { registers := fun _ => 0
    position_in_memory := 0
    memory := fun a => if a % 2 = 0 then 0x20 else (a + 1) % 256
    stack := fun _ => 0
    stack_pointer := 0 }

/-- Claim C2: the call-stack depth never exceeds 16 in any reachable state
(step preserves depth ≤ 16); a CALL with the stack at capacity 16 is a
StackOverflow fault and a RET with an empty stack is a StackUnderflow fault;
a fault stops the loop immediately (no further iteration runs); and on the
concrete CALL chain, 16 nested CALLs succeed while the 17th overflows. -/
theorem C2_thm :
    (∀ c : CPU, c.stack_pointer ≤ 16 → (step c).sp ≤ 16) ∧
    (∀ c p addr, c.position_in_memory = p → p + 1 < 4096 → addr < 4096 →
      c.memory p % 256 = 32 + addr / 256 → c.memory (p + 1) % 256 = addr % 256 →
      ((c.stack_pointer < 16 →
          (step c).isNext = true ∧ (step c).sp = c.stack_pointer + 1) ∧
       (16 ≤ c.stack_pointer → (step c).isOverflow = true))) ∧
    (∀ c p, c.position_in_memory = p → p + 1 < 4096 →
      c.memory p % 256 = 0 → c.memory (p + 1) % 256 = 0xEE →
      c.stack_pointer = 0 → (step c).isUnderflow = true) ∧
    (∀ n (c : CPU), (step c).isNext = false → run (n + 1) c = step c) ∧
    ((run 16 chainCpu).isNext = true ∧ (run 16 chainCpu).sp = 16 ∧
     (run 17 chainCpu).isOverflow = true) := by
  refine ⟨step_sp_le, ?_, ?_, run_stops, by decide⟩
  · intro c p addr hp hbp haddr hm1 hm2
    have hstep := step_eq_exec c (by omega)
    have hf : fetch c = 8192 + addr := by
      have h := fetch_eq c p (32 + addr / 256) (addr % 256) hp hm1 hm2
      omega
    have hao : addrOf (8192 + addr) = addr := by simp only [addrOf]; omega
    constructor
    · intro hsp
      rw [hstep, hf, exec_class2 _ _ (by omega), hao,
        call_lt { c with position_in_memory := c.position_in_memory + 2 } addr hsp]
      exact ⟨rfl, rfl⟩
    · intro hsp
      rw [hstep, hf, exec_class2 _ _ (by omega), hao,
        call_ge { c with position_in_memory := c.position_in_memory + 2 } addr hsp]
      rfl
  · intro c p hp hbp hm1 hm2 hsp
    have hstep := step_eq_exec c (by omega)
    have hf : fetch c = 0xEE := by simp [fetch, hp, hm1, hm2]
    rw [hstep, hf, exec_ret _ _ rfl,
      ret_zero { c with position_in_memory := c.position_in_memory + 2 } hsp]
    rfl

/-- CALL 0x100 at address 0 with the stack already at capacity 16. -/
def cpuC2full : CPU :=
  { registers := fun _ => 0
    position_in_memory := 0
    memory := fun a => if a = 0 then 0x21 else 0
    stack := fun _ => 0
    stack_pointer := 16 }

/-- RET at address 0 with an empty stack. -/
def cpuC2empty : CPU :=
  { registers := fun _ => 0
    position_in_memory := 0
    memory := fun a => if a = 1 then 0xEE else 0
    stack := fun _ => 0
    stack_pointer := 0 }

theorem C2_witness :
    (step chainCpu).sp ≤ 16 ∧ (step cpuC2full).isOverflow = true ∧
    (step cpuC2empty).isUnderflow = true ∧ run 3 cpuC2full = step cpuC2full :=
  ⟨C2_thm.1 chainCpu (by decide),
   (C2_thm.2.1 cpuC2full 0 256 rfl (by omega) (by omega) (by decide) (by decide)).2
     (by decide),
   C2_thm.2.2.1 cpuC2empty 0 rfl (by omega) (by decide) (by decide) (by decide),
   C2_thm.2.2.2.1 2 cpuC2full (by decide)⟩

/-! ## Claims C3 and C4: fetch bounds and fault reporting -/

/-- Shape of every dispatch outcome: `exec` never yields the out-of-bounds
marker, and whenever it yields the unknown-opcode fault it carries exactly
the dispatched opcode (the datum of the C printout). -/
theorem exec_shape (d : CPU) (op : Nat) :
    (exec d op).isOob = false ∧
    ((exec d op).isUnknown = true → exec d op = Step.unknownOpcode op d) := by
  have hcall : ∀ a, (call d a).isOob = false ∧
      ((call d a).isUnknown = true → call d a = Step.unknownOpcode op d) := by
    intro a
    unfold call
    by_cases hc : 16 ≤ d.stack_pointer
    · rw [if_pos hc]; exact ⟨rfl, by simp [Step.isUnknown]⟩
    · rw [if_neg hc]; exact ⟨rfl, by simp [Step.isUnknown]⟩
  have hret : (ret d).isOob = false ∧
      ((ret d).isUnknown = true → ret d = Step.unknownOpcode op d) := by
    unfold ret
    by_cases hz : d.stack_pointer = 0
    · rw [if_pos hz]; exact ⟨rfl, by simp [Step.isUnknown]⟩
    · rw [if_neg hz]; exact ⟨rfl, by simp [Step.isUnknown]⟩
  unfold exec
  by_cases h0 : op = 0x0000
  · rw [if_pos h0]; exact ⟨rfl, by simp [Step.isUnknown]⟩
  rw [if_neg h0]
  by_cases h1 : op = 0x00E0
  · rw [if_pos h1]; exact ⟨rfl, by simp [Step.isUnknown]⟩
  rw [if_neg h1]
  by_cases h2 : op = 0x00EE
  · rw [if_pos h2]; exact hret
  rw [if_neg h2]
  by_cases h3 : classOf op = 1
  · rw [if_pos h3]; exact ⟨rfl, by simp [Step.isUnknown]⟩
  rw [if_neg h3]
  by_cases h4 : classOf op = 2
  · rw [if_pos h4]; exact hcall _
  rw [if_neg h4]
  by_cases h5 : classOf op = 3
  · rw [if_pos h5]; exact ⟨rfl, by simp [Step.isUnknown]⟩
  rw [if_neg h5]
  by_cases h6 : classOf op = 4
  · rw [if_pos h6]; exact ⟨rfl, by simp [Step.isUnknown]⟩
  rw [if_neg h6]
  by_cases h7 : classOf op = 5
  · rw [if_pos h7]; exact ⟨rfl, by simp [Step.isUnknown]⟩
  rw [if_neg h7]
  by_cases h8 : classOf op = 6
  · rw [if_pos h8]; exact ⟨rfl, by simp [Step.isUnknown]⟩
  rw [if_neg h8]
  by_cases h9 : classOf op = 7
  · rw [if_pos h9]; exact ⟨rfl, by simp [Step.isUnknown]⟩
  rw [if_neg h9]
  by_cases h10 : classOf op = 8
  · rw [if_pos h10]
    by_cases m0 : minorOf op = 0
    · rw [if_pos m0]; exact ⟨rfl, by simp [Step.isUnknown]⟩
    rw [if_neg m0]
    by_cases m1 : minorOf op = 1
    · rw [if_pos m1]; exact ⟨rfl, by simp [Step.isUnknown]⟩
    rw [if_neg m1]
    by_cases m2 : minorOf op = 2
    · rw [if_pos m2]; exact ⟨rfl, by simp [Step.isUnknown]⟩
    rw [if_neg m2]
    by_cases m3 : minorOf op = 3
    · rw [if_pos m3]; exact ⟨rfl, by simp [Step.isUnknown]⟩
    rw [if_neg m3]
    by_cases m4 : minorOf op = 4
    · rw [if_pos m4]; exact ⟨rfl, by simp [Step.isUnknown]⟩
    rw [if_neg m4]
    exact ⟨rfl, fun _ => rfl⟩
  rw [if_neg h10]
  exact ⟨rfl, fun _ => rfl⟩

/-- Claim C3, amended: the fetch performs no bounds check.  One loop
iteration is the undefined out-of-range access (`oobFetch`) exactly when the
program counter is beyond 0xFFE, and in that case the machine state is left
as it was; the out-of-range access is not one of the detected, reported
faults. -/
theorem C3_thm (c : CPU) :
    ((step c).isOob = true ↔ 0xFFE < c.position_in_memory) ∧
    (0xFFE < c.position_in_memory → step c = Step.oobFetch c) := by
  by_cases hb : c.position_in_memory + 1 < 4096
  · have hs := step_eq_exec c hb
    refine ⟨⟨fun hoob => ?_, fun hgt => absurd hgt (by omega)⟩,
      fun hgt => absurd hgt (by omega)⟩
    rw [hs, (exec_shape _ _).1] at hoob
    exact absurd hoob (by simp)
  · have hs : step c = Step.oobFetch c := by
      unfold step
      rw [if_neg hb]
    exact ⟨⟨fun _ => by omega, fun _ => by rw [hs]; rfl⟩, fun _ => hs⟩

/-- A machine whose program counter 0xFFF already points past the last
fetchable position 0xFFE. -/
def cpuC3 : CPU :=
  { registers := fun _ => 0
    position_in_memory := 0xFFF
    memory := fun _ => 0
    stack := fun _ => 0
    stack_pointer := 0 }

/-- Claim C3, counterexample: at program counter 0xFFF the fetch would read
memory[0x1000], out of the 4096-byte array.  The code does not detect this:
the outcome is the undefined-behavior marker, not a halt, not any of the
reported fault kinds (unknown opcode / stack overflow / stack underflow),
contradicting the claim that the access is bounds-checked and faulted. -/
theorem C3_counterexample :
    0xFFE < cpuC3.position_in_memory ∧
    (step cpuC3).isOob = true ∧ (step cpuC3).isUnknown = false ∧
    (step cpuC3).isOverflow = false ∧ (step cpuC3).isUnderflow = false ∧
    (step cpuC3).isHalt = false ∧ (step cpuC3).isNext = false := by
  decide

theorem C3_witness : (step cpuC3).isOob = true ∧ step cpuC3 = Step.oobFetch cpuC3 :=
  ⟨((C3_thm cpuC3).1).mpr (by decide), (C3_thm cpuC3).2 (by decide)⟩

/-- Claim C4, amended: when the loop stops on an opcode that matches no
dispatch pattern, the diagnostic it emits is exactly the literal fetched
16-bit opcode; the program counter at which the opcode was fetched is not
part of the diagnostic. -/
theorem C4_thm (c : CPU) (h : (step c).isUnknown = true) :
    (step c).reported = some (fetch c) := by
  by_cases hb : c.position_in_memory + 1 < 4096
  · have hs := step_eq_exec c hb
    rw [hs] at h ⊢
    rw [(exec_shape _ _).2 h]
    rfl
  · have hs : step c = Step.oobFetch c := by
      unfold step
      rw [if_neg hb]
    rw [hs] at h
    exact absurd h (by simp [Step.isUnknown])

/-- Unrecognized opcode 0xFFFF everywhere in memory; two copies of the same
machine that differ only in the program counter at which the bad opcode is
fetched (0 versus 2). -/
def cpuC4a : CPU :=
  { registers := fun _ => 0
    position_in_memory := 0
    memory := fun _ => 0xFF
    stack := fun _ => 0
    stack_pointer := 0 }

def cpuC4b : CPU :=
  { registers := fun _ => 0
    position_in_memory := 2
    memory := fun _ => 0xFF
    stack := fun _ => 0
    stack_pointer := 0 }

/-- Claim C4, counterexample: both machines fault on the unrecognized opcode
0xFFFF, fetched at program counter 0 in one and at program counter 2 in the
other, yet the emitted diagnostics are identical (`some 0xFFFF`): the
diagnostic cannot and does not expose the program counter, contradicting the
claim that the faulting program counter is exposed alongside the opcode. -/
theorem C4_counterexample :
    (step cpuC4a).isUnknown = true ∧ (step cpuC4b).isUnknown = true ∧
    cpuC4a.position_in_memory ≠ cpuC4b.position_in_memory ∧
    (step cpuC4a).reported = some 0xFFFF ∧
    (step cpuC4b).reported = some 0xFFFF := by
  decide

theorem C4_witness :
    (step cpuC4a).isUnknown = true ∧ (step cpuC4a).reported = some (fetch cpuC4a) :=
  ⟨by decide, C4_thm cpuC4a (by decide)⟩

/-! ## Claim C7: class-0x5 opcodes with nonzero minor nibble -/

/-- Opcode 0x5011 (class 5, minor nibble 1) at address 0; V0 = V1 = 0. -/
def cpuC7 : CPU :=
  { registers := fun _ => 0
    position_in_memory := 0
    memory := fun a => if a = 0 then 0x50 else if a = 1 then 0x11 else 0
    stack := fun _ => 0
    stack_pointer := 0 }

/-- Claim C7, counterexample: opcode 0x5011 (class nibble 0x5, minor nibble
1) does not fault.  The dispatch at line 67 of src/main.c matches on the
class nibble alone, so 0x5011 is executed as SE V0,V1: the registers are
equal, the skip is taken, and the loop continues at program counter 4 —
no FAULTED transition, no reported opcode. -/
theorem C7_counterexample :
    (step cpuC7).isUnknown = false ∧ (step cpuC7).isNext = true ∧
    (step cpuC7).pc = 4 := by
  decide

/-- Claim C7, amended: every opcode with class nibble 0x5 — whatever its
minor nibble, in particular any nonzero one — is dispatched by class alone
and executed as SE Vx,Vy (skip next instruction iff Vx = Vy, the minor
nibble being ignored); it is not faulted and not silently dropped. -/
theorem C7_thm (c : CPU) (p x k : Nat)
    (hp : c.position_in_memory = p) (hbp : p + 1 < 4096)
    (hx : x < 16) (hk : k < 256) (hminor : k % 16 ≠ 0)
    (hm1 : c.memory p % 256 = 80 + x) (hm2 : c.memory (p + 1) % 256 = k) :
    (step c).isUnknown = false ∧ (step c).isNext = true ∧
    (step c).pc = (if c.registers x % 256 = c.registers (k / 16) % 256
      then p + 4 else p + 2) := by
  have hstep := step_eq_exec c (by omega)
  have hf := fetch_eq c p (80 + x) k hp hm1 hm2
  have hcl : ((80 + x) * 256 + k) / 4096 = 5 := by omega
  have hxx : xOf ((80 + x) * 256 + k) = x := by
    simp only [xOf]; omega
  have hyy : yOf ((80 + x) * 256 + k) = k / 16 := by
    simp only [yOf]; omega
  have hmm : c.registers (k / 16) % 256 % 256 = c.registers (k / 16) % 256 := by
    omega
  rw [hstep, hf, exec_class5 _ _ hcl, hxx, hyy]
  simp only [se, hmm]
  by_cases hc : c.registers x % 256 = c.registers (k / 16) % 256
  · simp [hc, Step.isUnknown, Step.isNext, Step.pc, Step.cpu, hp]
  · simp [hc, Step.isUnknown, Step.isNext, Step.pc, Step.cpu, hp]

theorem C7_witness :
    (step cpuC7).isUnknown = false ∧ (step cpuC7).isNext = true ∧
    (step cpuC7).pc = (if cpuC7.registers 0 % 256 = cpuC7.registers (0x11 / 16) % 256
      then 0 + 4 else 0 + 2) :=
  C7_thm cpuC7 0 0 0x11 rfl (by omega) (by omega) (by omega) (by omega)
    (by decide) (by decide)

/-! ## Claim C10: decoded register indices and register-file accesses

The register file has 16 entries.  Besides the bound on the decoded indices
themselves, the semantic content of "every register-file access is within
bounds" is that a step never reads or writes the register file outside
indices 0..15: two states that agree on registers 0..15 (and on everything
else) step to the same outcome, again agreeing on registers 0..15. -/

/-- Agreement of two machine states on every C-visible component: equal
program counter, memory, stack and stack pointer, and equal register values
at every index inside the 16-entry register array. -/
def CPU.Eqv (c d : CPU) : Prop :=
  c.position_in_memory = d.position_in_memory ∧ c.memory = d.memory ∧
  c.stack = d.stack ∧ c.stack_pointer = d.stack_pointer ∧
  ∀ i, i < 16 → c.registers i = d.registers i

/-- Agreement of two step outcomes: same constructor, same reported opcode,
and `CPU.Eqv`-agreeing carried states. -/
def Step.Eqv : Step → Step → Prop
  | .next c, .next d => c.Eqv d
  | .halt c, .halt d => c.Eqv d
  | .unknownOpcode o c, .unknownOpcode o2 d => o = o2 ∧ c.Eqv d
  | .stackOverflow c, .stackOverflow d => c.Eqv d
  | .stackUnderflow c, .stackUnderflow d => c.Eqv d
  | .oobFetch c, .oobFetch d => c.Eqv d
  | _, _ => False

theorem upd_eqv (f g : Nat → Nat) (h : ∀ i, i < 16 → f i = g i) (j v : Nat) :
    ∀ i, i < 16 → upd f j v i = upd g j v i := by
  intro i hi
  unfold upd
  by_cases hij : i = j
  · rw [if_pos hij, if_pos hij]
  · rw [if_neg hij, if_neg hij]
    exact h i hi

theorem ld_eqv (c d : CPU) (x k : Nat) (h : CPU.Eqv c d) :
    CPU.Eqv (ld c x k) (ld d x k) := by
  obtain ⟨h1, h2, h3, h4, h5⟩ := h
  exact ⟨h1, h2, h3, h4, upd_eqv _ _ h5 _ _⟩

theorem add_eqv (c d : CPU) (x k : Nat) (hx : x < 16) (h : CPU.Eqv c d) :
    CPU.Eqv (add c x k) (add d x k) := by
  obtain ⟨h1, h2, h3, h4, h5⟩ := h
  refine ⟨h1, h2, h3, h4, ?_⟩
  simp only [add, h5 x hx]
  exact upd_eqv _ _ h5 _ _

theorem se_eqv (c d : CPU) (x k : Nat) (hx : x < 16) (h : CPU.Eqv c d) :
    CPU.Eqv (se c x k) (se d x k) := by
  obtain ⟨h1, h2, h3, h4, h5⟩ := h
  unfold se
  rw [h5 x hx]
  by_cases hc : d.registers x % 256 = k % 256
  · rw [if_pos hc, if_pos hc]
    exact ⟨by rw [h1], h2, h3, h4, h5⟩
  · rw [if_neg hc, if_neg hc]
    exact ⟨h1, h2, h3, h4, h5⟩

theorem sne_eqv (c d : CPU) (x k : Nat) (hx : x < 16) (h : CPU.Eqv c d) :
    CPU.Eqv (sne c x k) (sne d x k) := by
  obtain ⟨h1, h2, h3, h4, h5⟩ := h
  unfold sne
  rw [h5 x hx]
  by_cases hc : d.registers x % 256 ≠ k % 256
  · rw [if_pos hc, if_pos hc]
    exact ⟨by rw [h1], h2, h3, h4, h5⟩
  · rw [if_neg hc, if_neg hc]
    exact ⟨h1, h2, h3, h4, h5⟩

theorem or_eqv (c d : CPU) (x y : Nat) (hx : x < 16) (hy : y < 16) (h : CPU.Eqv c d) :
    CPU.Eqv (or_xy c x y) (or_xy d x y) := by
  obtain ⟨h1, h2, h3, h4, h5⟩ := h
  refine ⟨h1, h2, h3, h4, ?_⟩
  simp only [or_xy, h5 x hx, h5 y hy]
  exact upd_eqv _ _ h5 _ _

theorem and_eqv (c d : CPU) (x y : Nat) (hx : x < 16) (hy : y < 16) (h : CPU.Eqv c d) :
    CPU.Eqv (and_xy c x y) (and_xy d x y) := by
  obtain ⟨h1, h2, h3, h4, h5⟩ := h
  refine ⟨h1, h2, h3, h4, ?_⟩
  simp only [and_xy, h5 x hx, h5 y hy]
  exact upd_eqv _ _ h5 _ _

theorem xor_eqv (c d : CPU) (x y : Nat) (hx : x < 16) (hy : y < 16) (h : CPU.Eqv c d) :
    CPU.Eqv (xor_xy c x y) (xor_xy d x y) := by
  obtain ⟨h1, h2, h3, h4, h5⟩ := h
  refine ⟨h1, h2, h3, h4, ?_⟩
  simp only [xor_xy, h5 x hx, h5 y hy]
  exact upd_eqv _ _ h5 _ _

theorem add_xy_eqv (c d : CPU) (x y : Nat) (hx : x < 16) (hy : y < 16) (h : CPU.Eqv c d) :
    CPU.Eqv (add_xy c x y) (add_xy d x y) := by
  obtain ⟨h1, h2, h3, h4, h5⟩ := h
  refine ⟨h1, h2, h3, h4, ?_⟩
  simp only [add_xy, h5 x hx, h5 y hy]
  exact upd_eqv _ _ (upd_eqv _ _ h5 _ _) _ _

theorem call_eqv (c d : CPU) (a : Nat) (h : CPU.Eqv c d) :
    Step.Eqv (call c a) (call d a) := by
  obtain ⟨h1, h2, h3, h4, h5⟩ := h
  unfold call
  rw [h4, h3, h1]
  by_cases hc : 16 ≤ d.stack_pointer
  · rw [if_pos hc, if_pos hc]
    exact ⟨h1, h2, h3, h4, h5⟩
  · rw [if_neg hc, if_neg hc]
    exact ⟨rfl, h2, rfl, rfl, h5⟩

theorem ret_eqv (c d : CPU) (h : CPU.Eqv c d) :
    Step.Eqv (ret c) (ret d) := by
  obtain ⟨h1, h2, h3, h4, h5⟩ := h
  unfold ret
  rw [h4, h3]
  by_cases hz : d.stack_pointer = 0
  · rw [if_pos hz, if_pos hz]
    exact ⟨h1, h2, h3, h4, h5⟩
  · rw [if_neg hz, if_neg hz]
    exact ⟨rfl, h2, rfl, rfl, h5⟩

theorem exec_eqv (c d : CPU) (op : Nat) (h : CPU.Eqv c d) :
    Step.Eqv (exec c op) (exec d op) := by
  obtain ⟨h1, h2, h3, h4, h5⟩ := h
  have hcd : CPU.Eqv c d := ⟨h1, h2, h3, h4, h5⟩
  unfold exec
  by_cases h0 : op = 0x0000
  · rw [if_pos h0, if_pos h0]; exact hcd
  rw [if_neg h0, if_neg h0]
  by_cases hA : op = 0x00E0
  · rw [if_pos hA, if_pos hA]; exact hcd
  rw [if_neg hA, if_neg hA]
  by_cases hB : op = 0x00EE
  · rw [if_pos hB, if_pos hB]; exact ret_eqv c d hcd
  rw [if_neg hB, if_neg hB]
  by_cases hC : classOf op = 1
  · rw [if_pos hC, if_pos hC]; exact ⟨rfl, h2, h3, h4, h5⟩
  rw [if_neg hC, if_neg hC]
  by_cases hD : classOf op = 2
  · rw [if_pos hD, if_pos hD]; exact call_eqv c d _ hcd
  rw [if_neg hD, if_neg hD]
  by_cases h3c : classOf op = 3
  · rw [if_pos h3c, if_pos h3c]; exact se_eqv c d _ _ (xOf_lt op) hcd
  rw [if_neg h3c, if_neg h3c]
  by_cases h4c : classOf op = 4
  · rw [if_pos h4c, if_pos h4c]; exact sne_eqv c d _ _ (xOf_lt op) hcd
  rw [if_neg h4c, if_neg h4c]
  by_cases h5c : classOf op = 5
  · rw [if_pos h5c, if_pos h5c, h5 (yOf op) (yOf_lt op)]
    exact se_eqv c d _ _ (xOf_lt op) hcd
  rw [if_neg h5c, if_neg h5c]
  by_cases h6c : classOf op = 6
  · rw [if_pos h6c, if_pos h6c]; exact ld_eqv c d _ _ hcd
  rw [if_neg h6c, if_neg h6c]
  by_cases h7c : classOf op = 7
  · rw [if_pos h7c, if_pos h7c]; exact add_eqv c d _ _ (xOf_lt op) hcd
  rw [if_neg h7c, if_neg h7c]
  by_cases h8c : classOf op = 8
  · rw [if_pos h8c, if_pos h8c]
    by_cases m0 : minorOf op = 0
    · rw [if_pos m0, if_pos m0, h5 (yOf op) (yOf_lt op)]
      exact ld_eqv c d _ _ hcd
    rw [if_neg m0, if_neg m0]
    by_cases m1 : minorOf op = 1
    · rw [if_pos m1, if_pos m1]; exact or_eqv c d _ _ (xOf_lt op) (yOf_lt op) hcd
    rw [if_neg m1, if_neg m1]
    by_cases m2 : minorOf op = 2
    · rw [if_pos m2, if_pos m2]; exact and_eqv c d _ _ (xOf_lt op) (yOf_lt op) hcd
    rw [if_neg m2, if_neg m2]
    by_cases m3 : minorOf op = 3
    · rw [if_pos m3, if_pos m3]; exact xor_eqv c d _ _ (xOf_lt op) (yOf_lt op) hcd
    rw [if_neg m3, if_neg m3]
    by_cases m4 : minorOf op = 4
    · rw [if_pos m4, if_pos m4]; exact add_xy_eqv c d _ _ (xOf_lt op) (yOf_lt op) hcd
    rw [if_neg m4, if_neg m4]
    exact ⟨rfl, hcd⟩
  rw [if_neg h8c, if_neg h8c]
  exact ⟨rfl, hcd⟩

theorem step_eqv (c d : CPU) (h : CPU.Eqv c d) : Step.Eqv (step c) (step d) := by
  obtain ⟨h1, h2, h3, h4, h5⟩ := h
  have hf : fetch c = fetch d := by
    unfold fetch
    rw [h1, h2]
  unfold step
  rw [h1, hf]
  by_cases hb : d.position_in_memory + 1 < 4096
  · rw [if_pos hb, if_pos hb]
    exact exec_eqv _ _ _ ⟨rfl, h2, h3, h4, h5⟩
  · rw [if_neg hb, if_neg hb]
    exact ⟨h1, h2, h3, h4, h5⟩

/-- Claim C10: for every 16-bit opcode the decoded register indices X
(bits 8-11) and Y (bits 4-7) are below 16, and a step never touches the
register file outside indices 0..15: states agreeing on registers 0..15
(and on all other fields) produce outcome-and-state-agreeing steps. -/
theorem C10_thm :
    (∀ op : Nat, op < 65536 → xOf op < 16 ∧ yOf op < 16) ∧
    (∀ c d : CPU, CPU.Eqv c d → Step.Eqv (step c) (step d)) :=
  ⟨fun op _ => ⟨xOf_lt op, yOf_lt op⟩, step_eqv⟩

/-- ADD V0,V1 at address 0; the second copy differs from the first only at
the out-of-array register index 20. -/
def cpuC10a : CPU :=
  { registers := fun _ => 0
    position_in_memory := 0
    memory := fun a => if a = 0 then 0x80 else if a = 1 then 0x14 else 0
    stack := fun _ => 0
    stack_pointer := 0 }

def cpuC10b : CPU :=
  { registers := fun i => if i = 20 then 99 else 0
    position_in_memory := 0
    memory := fun a => if a = 0 then 0x80 else if a = 1 then 0x14 else 0
    stack := fun _ => 0
    stack_pointer := 0 }

theorem C10_witness :
    (xOf 0x8019 < 16 ∧ yOf 0x8019 < 16) ∧
    Step.Eqv (step cpuC10a) (step cpuC10b) :=
  ⟨C10_thm.1 0x8019 (by omega),
   C10_thm.2 cpuC10a cpuC10b ⟨rfl, rfl, rfl, rfl, by decide⟩⟩
